import Mathlib

/-!
Verification of the ft_transcendence online-game backend
(`packages/backend/src/services/gameRoom.service.ts`,
`matchmaking.service.ts` and the Socket.IO connection handler).

The TypeScript services are shallowly embedded: every mutating method
becomes a pure function from the touched state to the new state paired
with the list of emitted observable events (socket emissions and
persistence-gateway calls).  Machine numbers (positions, velocities)
are modelled as rationals, timestamps as integers, scores and user ids
as naturals.  Sources of nondeterminism of the original code are made
explicit parameters: `Math.random()` draws become rational inputs
`r1 r2`, `Date.now()` becomes a `now : ℤ` input, and the result of the
fallible `gameService.createGameSession` call becomes an
`Option ℕ` input (`none` models the call throwing).
-/

namespace FtTrans

/-- A client-supplied paddle value as it arrives over the socket: either a
JavaScript number (finite, `NaN` or an infinity) or a non-number value. -/
inductive PaddleInput where
  | nan : PaddleInput
  | posInf : PaddleInput
  | negInf : PaddleInput
  | nonNumber : PaddleInput
  | finite : ℚ → PaddleInput
deriving DecidableEq

/-- Mirrors the guard `typeof x === "number" && Number.isFinite(x)`. -/
def PaddleInput.isFiniteNumber : PaddleInput → Bool
  | .finite _ => true
  | _ => false

/-- One player slot of a `GameRoom` (socket omitted; events are addressed
by recipient id instead). -/
structure Player where
  userId : ℕ
  userName : String
  paddleX : ℚ
  score : ℕ
  isReady : Bool
deriving DecidableEq

/-- The ball state of a room. -/
structure Ball where
  x : ℚ
  y : ℚ
  z : ℚ
  velocityX : ℚ
  velocityZ : ℚ
deriving DecidableEq

/-- A game room, mirroring the `GameRoom` interface.  The
`gameLoopInterval` handle is abstracted to the boolean `loopRunning`
(`true` iff the stored interval is non-null). -/
structure GameRoom where
  id : String
  player1 : Player
  player2 : Player
  ball : Ball
  gameStarted : Bool
  gameEnded : Bool
  gameSessionId : Option ℕ
  startTime : Option ℤ
  lastUpdate : ℤ
  loopRunning : Bool
deriving DecidableEq

/-- Observable outputs: socket emissions (first argument = recipient:
a user id, or a raw socket id for pre-authentication traffic;
room-wide broadcasts carry the room id) and persistence-gateway calls. -/
inductive Event where
  | connected : ℕ → String → Event
  | errorEvt : ℕ → String → Event
  | socketDisconnect : ℕ → Event
  | queueJoined : ℕ → Event
  | queueLeft : ℕ → Event
  | matchFound : ℕ → String → String → Event
  | gameStart : ℕ → String → String → Bool → Event
  | opponentPaddleMove : ℕ → ℚ → Event
  | scoreUpdate : String → ℕ → ℕ → Event
  | gameStateBroadcast : String → Event
  | gameEnd : String → ℕ → ℕ → ℕ → Event
  | opponentDisconnected : ℕ → Event
  | createSessionCall : ℕ → ℕ → Event
  | completeSessionCall : ℕ → ℕ → ℕ → ℤ → Event
deriving DecidableEq

/-- `Math.max(-maxX, Math.min(maxX, x))` with
`maxX = (FIELD_WIDTH - PADDLE_WIDTH) / 2 = (20 - 4) / 2 = 8`. -/
def clampPaddleX (x : ℚ) : ℚ := max (-8) (min 8 x)

/-- `GameRoomManager.updatePaddle`, per room (the `getRoomByPlayer`
lookup having succeeded is the caller's concern).  Returns the mutated
room and the events emitted. -/
def updatePaddle (room : GameRoom) (userId : ℕ) (x : PaddleInput) :
    GameRoom × List Event :=
  if ¬room.gameStarted ∨ room.gameEnded then (room, [])
  else
    match x with
    | .finite q =>
        let validatedX := clampPaddleX q
        if room.player1.userId = userId then
          ({ room with player1 := { room.player1 with paddleX := validatedX } },
           [Event.opponentPaddleMove room.player2.userId validatedX])
        else if room.player2.userId = userId then
          ({ room with player2 := { room.player2 with paddleX := validatedX } },
           [Event.opponentPaddleMove room.player1.userId validatedX])
        else (room, [])
    | _ => (room, [])

/-- The ball-reset block used by `startGame` and `handleScore`:
`velocityX = (Math.random() - 0.5) * 0.2`,
`velocityZ = (Math.random() > 0.5 ? 1 : -1) * 0.3`, with the two
`Math.random()` draws passed in as `r1 r2`. -/
def resetBall (r1 r2 : ℚ) : Ball :=
  { x := 0, y := 2/5, z := 0,
    velocityX := (r1 - 1/2) * (1/5),
    velocityZ := (if 1/2 < r2 then 1 else -1) * (3/10) }

/-- `GameRoomManager.startGame`.  `sessionRes = some id` models
`gameService.createGameSession` returning a session with that id,
`none` models it throwing (the error is caught and logged, and
`gameSessionId` is left as it was). -/
def startGame (now : ℤ) (sessionRes : Option ℕ) (r1 r2 : ℚ)
    (room : GameRoom) : GameRoom × List Event :=
  ({ room with
       gameStarted := true,
       startTime := some now,
       gameSessionId :=
         (match sessionRes with
          | some sid => some sid
          | none => room.gameSessionId),
       ball := resetBall r1 r2,
       loopRunning := true },
   [Event.createSessionCall room.player1.userId room.player2.userId,
    Event.gameStart room.player1.userId room.player1.userName
      room.player2.userName true,
    Event.gameStart room.player2.userId room.player1.userName
      room.player2.userName false])

/-- `GameRoomManager.setPlayerReady`, per room: mark the matching player
ready, then start the game iff both are ready and it has not started. -/
def setPlayerReadyRoom (now : ℤ) (sessionRes : Option ℕ) (r1 r2 : ℚ)
    (room : GameRoom) (userId : ℕ) : GameRoom × List Event :=
  let room1 :=
    if room.player1.userId = userId then
      { room with player1 := { room.player1 with isReady := true } }
    else if room.player2.userId = userId then
      { room with player2 := { room.player2 with isReady := true } }
    else room
  if room1.player1.isReady ∧ room1.player2.isReady ∧ ¬room1.gameStarted then
    startGame now sessionRes r1 r2 room1
  else (room1, [])

/-- First block of `updateGameState`: advance the ball by its velocity. -/
def moveBall (b : Ball) : Ball :=
  { b with x := b.x + b.velocityX, z := b.z + b.velocityZ }

/-- Wall-collision block of `updateGameState`:
`maxX = FIELD_WIDTH / 2 - 0.5 = 9.5`; on contact invert `velocityX`
and clamp `x` to the touched bound. -/
def wallBounce (b : Ball) : Ball :=
  if b.x ≤ -(19/2 : ℚ) ∨ (19/2 : ℚ) ≤ b.x then
    { b with velocityX := b.velocityX * (-1),
             x := if b.x ≤ -(19/2 : ℚ) then -(19/2 : ℚ) else (19/2 : ℚ) }
  else b

/-- Player-1 paddle-collision block of `updateGameState`:
`paddle1Z = -FIELD_LENGTH / 2 + 2 = -13`, hit window
`|z - paddle1Z| < 1 ∧ |x - paddleX| < PADDLE_HEIGHT / 2 = 2`;
on hit `velocityZ *= -1.05`, `z = paddle1Z + 1`, and the spin
`velocityX = ((x - paddleX) / 2) * 0.15`. -/
def paddle1Hit (p1x : ℚ) (b : Ball) : Ball :=
  if |b.z - (-13 : ℚ)| < 1 ∧ |b.x - p1x| < 2 then
    let b1 := { b with velocityZ := b.velocityZ * (-(21/20 : ℚ)),
                       z := (-13 : ℚ) + 1 }
    { b1 with velocityX := ((b1.x - p1x) / 2) * (3/20 : ℚ) }
  else b

/-- Player-2 paddle-collision block of `updateGameState`:
`paddle2Z = FIELD_LENGTH / 2 - 2 = 13`, on hit `z = paddle2Z - 1`. -/
def paddle2Hit (p2x : ℚ) (b : Ball) : Ball :=
  if |b.z - (13 : ℚ)| < 1 ∧ |b.x - p2x| < 2 then
    let b1 := { b with velocityZ := b.velocityZ * (-(21/20 : ℚ)),
                       z := (13 : ℚ) - 1 }
    { b1 with velocityX := ((b1.x - p2x) / 2) * (3/20 : ℚ) }
  else b

/-- The persistence block of `endGame`:
`if (room.gameSessionId && room.startTime)` — JavaScript truthiness, so
a zero id or zero start time is falsy — call
`completeGameSession(id, score1, score2, floor((now - startTime)/1000))`. -/
def completionEvents (now : ℤ) (room : GameRoom) : List Event :=
  match room.gameSessionId, room.startTime with
  | some sid, some t0 =>
      if sid ≠ 0 ∧ t0 ≠ 0 then
        [Event.completeSessionCall sid room.player1.score
          room.player2.score (Int.fdiv (now - t0) 1000)]
      else []
  | _, _ => []

/-- `GameRoomManager.endGame`: return immediately if the `gameEnded`
flag is already set; otherwise set it, stop the loop, compute the
winner, make the best-effort `completeSession` call and broadcast
`gameEnd`.  (The delayed 5 s `destroyRoom` cleanup is a separate
manager operation.) -/
def endGame (now : ℤ) (room : GameRoom) : GameRoom × List Event :=
  if room.gameEnded then (room, [])
  else
    ({ room with gameEnded := true, loopRunning := false },
     completionEvents now room ++
       [Event.gameEnd room.id
         (if room.player2.score < room.player1.score then room.player1.userId
          else room.player2.userId)
         room.player1.score room.player2.score])

/-- `GameRoomManager.handleScore`: no-op on an ended room; otherwise
broadcast the score, then end the game at the win threshold
(`MAX_SCORE = 11`) or reset the ball. -/
def handleScore (now : ℤ) (r1 r2 : ℚ) (room : GameRoom) :
    GameRoom × List Event :=
  if room.gameEnded then (room, [])
  else if 11 ≤ room.player1.score ∨ 11 ≤ room.player2.score then
    ((endGame now room).1,
     Event.scoreUpdate room.id room.player1.score room.player2.score ::
       (endGame now room).2)
  else
    ({ room with ball := resetBall r1 r2 },
     [Event.scoreUpdate room.id room.player1.score room.player2.score])

/-- Score-detection block of `updateGameState`: past the far ends of the
field (`FIELD_LENGTH / 2 = 15`) the conceding side's opponent scores and
`handleScore` runs. -/
def scoreCheck (now : ℤ) (r1 r2 : ℚ) (room : GameRoom) :
    GameRoom × List Event :=
  if room.ball.z < -(15 : ℚ) then
    handleScore now r1 r2
      { room with player2 := { room.player2 with score := room.player2.score + 1 } }
  else if (15 : ℚ) < room.ball.z then
    handleScore now r1 r2
      { room with player1 := { room.player1 with score := room.player1.score + 1 } }
  else (room, [])

/-- `GameRoomManager.updateGameState`: guard on `gameEnded`, then the
move, wall, paddle-1, paddle-2 and score-detection blocks in source
order. -/
def updateGameState (now : ℤ) (r1 r2 : ℚ) (room : GameRoom) :
    GameRoom × List Event :=
  if room.gameEnded then (room, [])
  else
    let b := paddle2Hit room.player2.paddleX
      (paddle1Hit room.player1.paddleX (wallBounce (moveBall room.ball)))
    scoreCheck now r1 r2 { room with ball := b }

/-- One iteration of the `setInterval` callback installed by
`startGameLoop`: if the game has ended the interval clears itself and
nothing is emitted; otherwise run the physics update and broadcast the
resulting state to the room. -/
def gameLoopTick (now : ℤ) (r1 r2 : ℚ) (room : GameRoom) :
    GameRoom × List Event :=
  if room.gameEnded then ({ room with loopRunning := false }, [])
  else
    ({ (updateGameState now r1 r2 room).1 with lastUpdate := now },
     (updateGameState now r1 r2 room).2 ++
       [Event.gameStateBroadcast (updateGameState now r1 r2 room).1.id])

/-- A per-room operation of the room's lifetime: a `ready` signal, a
`paddleMove`, one game-loop tick, or a direct `endGame` invocation.
Environment inputs (`Date.now()`, random draws, the persistence result)
are carried in the operation. -/
inductive RoomOp where
  | ready : ℕ → ℤ → Option ℕ → ℚ → ℚ → RoomOp
  | paddle : ℕ → PaddleInput → RoomOp
  | tick : ℤ → ℚ → ℚ → RoomOp
  | endNow : ℤ → RoomOp
deriving DecidableEq

/-- Dispatch one `RoomOp` against the room. -/
def roomStep (room : GameRoom) : RoomOp → GameRoom × List Event
  | .ready uid now s r1 r2 => setPlayerReadyRoom now s r1 r2 room uid
  | .paddle uid x => updatePaddle room uid x
  | .tick now r1 r2 => gameLoopTick now r1 r2 room
  | .endNow now => endGame now room

/-- Run a whole sequence of room operations, concatenating the events. -/
def runRoom (room : GameRoom) : List RoomOp → GameRoom × List Event
  | [] => (room, [])
  | op :: ops =>
      let res1 := roomStep room op
      let res2 := runRoom res1.1 ops
      (res2.1, res1.2 ++ res2.2)

/-- How many `completeSession` persistence calls a list of events holds. -/
def countCompleteSession : List Event → ℕ
  | [] => 0
  | Event.completeSessionCall _ _ _ _ :: es => countCompleteSession es + 1
  | _ :: es => countCompleteSession es

/-- How many `gameEnd` emissions a list of events holds. -/
def countGameEnd : List Event → ℕ
  | [] => 0
  | Event.gameEnd _ _ _ _ :: es => countGameEnd es + 1
  | _ :: es => countGameEnd es

/-- `Map.get`, over an insertion-ordered association list. -/
def mapGet {α β : Type} [DecidableEq α] : List (α × β) → α → Option β
  | [], _ => none
  | p :: ps, k => if p.1 = k then some p.2 else mapGet ps k

/-- `Map.delete`: drop every entry with the key. -/
def mapDelete {α β : Type} [DecidableEq α] : List (α × β) → α →
    List (α × β)
  | [], _ => []
  | p :: ps, k => if p.1 = k then mapDelete ps k else p :: mapDelete ps k

/-- `Map.set`: replace in place when the key exists, else append. -/
def mapSet {α β : Type} [DecidableEq α] : List (α × β) → α → β →
    List (α × β)
  | [], k, v => [(k, v)]
  | p :: ps, k, v => if p.1 = k then (k, v) :: ps else p :: mapSet ps k v

/-- The `GameRoomManager` registries: `rooms` and `playerToRoom`. -/
structure Manager where
  rooms : List (String × GameRoom)
  playerToRoom : List (ℕ × String)
deriving DecidableEq

/-- `GameRoomManager.getRoomByPlayer`. -/
def getRoomByPlayer (m : Manager) (userId : ℕ) : Option GameRoom :=
  match mapGet m.playerToRoom userId with
  | none => none
  | some roomId => mapGet m.rooms roomId

/-- `GameRoomManager.createRoom`: register a fresh room (paddles
centred, scores zero, not ready, ball resting, nothing started) under
`roomId` — the `uuidv4()` draw passed in — and map both players to it. -/
def createRoom (m : Manager) (roomId : String) (now : ℤ)
    (p1 p2 : ℕ × String) : Manager :=
  let room : GameRoom :=
    { id := roomId,
      player1 := { userId := p1.1, userName := p1.2, paddleX := 0,
                   score := 0, isReady := false },
      player2 := { userId := p2.1, userName := p2.2, paddleX := 0,
                   score := 0, isReady := false },
      ball := { x := 0, y := 2/5, z := 0, velocityX := 0, velocityZ := 0 },
      gameStarted := false, gameEnded := false, gameSessionId := none,
      startTime := none, lastUpdate := now, loopRunning := false }
  { rooms := mapSet m.rooms roomId room,
    playerToRoom :=
      mapSet (mapSet m.playerToRoom p1.1 roomId) p2.1 roomId }

/-- `GameRoomManager.destroyRoom`: stop the loop, drop both
player-to-room mappings and drop the room.  Also returns the final
state of the (now unregistered) room object, `none` when the id was
unknown. -/
def destroyRoom (m : Manager) (roomId : String) :
    Manager × Option GameRoom :=
  match mapGet m.rooms roomId with
  | none => (m, none)
  | some room =>
      ({ rooms := mapDelete m.rooms roomId,
         playerToRoom :=
           mapDelete (mapDelete m.playerToRoom room.player1.userId)
             room.player2.userId },
       some { room with loopRunning := false })

/-- `GameRoomManager.handleDisconnect`: no-op when the player has no
room; otherwise notify the opponent and destroy the room. -/
def handleDisconnect (m : Manager) (userId : ℕ) :
    Manager × Option GameRoom × List Event :=
  match getRoomByPlayer m userId with
  | none => (m, none, [])
  | some room =>
      let opponentId :=
        if room.player1.userId = userId then room.player2.userId
        else room.player1.userId
      let res := destroyRoom m room.id
      (res.1, res.2, [Event.opponentDisconnected opponentId])

/-- `GameRoomManager.setPlayerReady` at manager level: look the room up
by player, silently return when there is none, else update it in the
registry. -/
def setPlayerReadyM (m : Manager) (userId : ℕ) (now : ℤ)
    (sessionRes : Option ℕ) (r1 r2 : ℚ) : Manager × List Event :=
  match getRoomByPlayer m userId with
  | none => (m, [])
  | some room =>
      let res := setPlayerReadyRoom now sessionRes r1 r2 room userId
      ({ m with rooms := mapSet m.rooms room.id res.1 }, res.2)

/-- An entry of the matchmaking queue. -/
structure QueuedPlayer where
  userId : ℕ
  userName : String
  queuedAt : ℤ
deriving DecidableEq

/-- The `MatchmakingService` state: the FIFO queue plus the owned
`GameRoomManager`. -/
structure MatchmakingState where
  queue : List QueuedPlayer
  mgr : Manager
deriving DecidableEq

/-- `MatchmakingService.tryMatch`: with fewer than two queued players do
nothing; otherwise shift the first two off the queue, create their room
under the fresh id and notify both. -/
def tryMatch (mm : MatchmakingState) (freshRoomId : String) (now : ℤ) :
    MatchmakingState × List Event :=
  if mm.queue.length < 2 then (mm, [])
  else
    match mm.queue with
    | p1 :: p2 :: rest =>
        let mgr1 := createRoom mm.mgr freshRoomId now
          (p1.userId, p1.userName) (p2.userId, p2.userName)
        ({ queue := rest, mgr := mgr1 },
         [Event.matchFound p1.userId p2.userName freshRoomId,
          Event.matchFound p2.userId p1.userName freshRoomId])
    | _ => (mm, [])

/-- `MatchmakingService.addToQueue`: reject a player already queued with
an error event; otherwise append, acknowledge and try to match. -/
def addToQueue (mm : MatchmakingState) (userId : ℕ) (userName : String)
    (now : ℤ) (freshRoomId : String) : MatchmakingState × List Event :=
  if mm.queue.any (fun p => p.userId == userId) then
    (mm, [Event.errorEvt userId "Already in queue"])
  else
    let mm1 : MatchmakingState :=
      { mm with queue :=
          mm.queue ++ [{ userId := userId, userName := userName,
                         queuedAt := now }] }
    let res := tryMatch mm1 freshRoomId now
    (res.1, Event.queueJoined userId :: res.2)

/-- `splice(index, 1)` after `findIndex`: remove the first entry of the
given player. -/
def removeFirstByUser : List QueuedPlayer → ℕ → List QueuedPlayer
  | [], _ => []
  | p :: ps, uid =>
      if p.userId = uid then ps else p :: removeFirstByUser ps uid

/-- `MatchmakingService.removeFromQueue`: idempotent removal; emits
`queueLeft` only when an entry was actually removed. -/
def removeFromQueue (mm : MatchmakingState) (userId : ℕ) :
    MatchmakingState × List Event :=
  if mm.queue.any (fun p => p.userId == userId) then
    ({ mm with queue := removeFirstByUser mm.queue userId },
     [Event.queueLeft userId])
  else (mm, [])

/-- A queue-facing client operation: join or leave the queue. -/
inductive QueueOp where
  | enq : ℕ → String → ℤ → String → QueueOp
  | deq : ℕ → QueueOp
deriving DecidableEq

/-- Dispatch one queue operation. -/
def queueStep (mm : MatchmakingState) : QueueOp →
    MatchmakingState × List Event
  | .enq uid nm now rid => addToQueue mm uid nm now rid
  | .deq uid => removeFromQueue mm uid

/-- Run a sequence of queue operations. -/
def runQueue (mm : MatchmakingState) : List QueueOp →
    MatchmakingState × List Event
  | [] => (mm, [])
  | op :: ops =>
      let res1 := queueStep mm op
      let res2 := runQueue res1.1 ops
      (res2.1, res1.2 ++ res2.2)

/-- The authentication prologue of the `io.on("connection")` handler:
`if (!sessionData.userId || !sessionData.userName)` — JavaScript
truthiness, so a missing field, a zero id or an empty name fails — emit
an error and disconnect the socket; otherwise store the identity and
acknowledge.  Returns the stored socket data (if any) and the events,
addressed by the raw socket id pre-authentication. -/
def connectionHandler (socketId : ℕ) (authUserId : Option ℕ)
    (authUserName : Option String) : Option (ℕ × String) × List Event :=
  match authUserId, authUserName with
  | some uid, some name =>
      if uid ≠ 0 ∧ name ≠ "" then
        (some (uid, name), [Event.connected uid name])
      else
        (none, [Event.errorEvt socketId "Authentication required",
                Event.socketDisconnect socketId])
  | _, _ =>
      (none, [Event.errorEvt socketId "Authentication required",
              Event.socketDisconnect socketId])

/-- Example fixture: a started, running room between players 1 ("alice",
paddle at 8) and 2 ("bob"), with a stored session id. -/
def roomA : GameRoom :=
  { id := "room-a",
    player1 := { userId := 1, userName := "alice", paddleX := 8,
                 score := 0, isReady := true },
    player2 := { userId := 2, userName := "bob", paddleX := 0,
                 score := 0, isReady := true },
    ball := { x := 0, y := 0, z := 0, velocityX := 0, velocityZ := 0 },
    gameStarted := true, gameEnded := false, gameSessionId := some 5,
    startTime := some 1000, lastUpdate := 0, loopRunning := true }

/-- Example fixture: `roomA` once its game has ended. -/
def roomDone : GameRoom := { roomA with gameEnded := true, loopRunning := false }

/-- Example fixture: a freshly created, not-yet-started room. -/
def roomFresh : GameRoom :=
  { id := "room-f",
    player1 := { userId := 1, userName := "alice", paddleX := 0,
                 score := 0, isReady := true },
    player2 := { userId := 2, userName := "bob", paddleX := 0,
                 score := 0, isReady := true },
    ball := { x := 0, y := 0, z := 0, velocityX := 0, velocityZ := 0 },
    gameStarted := false, gameEnded := false, gameSessionId := none,
    startTime := none, lastUpdate := 0, loopRunning := false }

/-- Example fixture: the registry holding just `roomA`. -/
def mgrA : Manager :=
  { rooms := [("room-a", roomA)],
    playerToRoom := [(1, "room-a"), (2, "room-a")] }

/-- Example fixture: the empty registry. -/
def mgrEmpty : Manager := { rooms := [], playerToRoom := [] }

/-- Example fixture: a queue holding the single player 9 ("carol"). -/
def mmQ : MatchmakingState :=
  { queue := [{ userId := 9, userName := "carol", queuedAt := 100 }],
    mgr := mgrEmpty }

/-- Example fixture: a ball touching the right wall and player 1's
paddle plane. -/
def ballW1 : Ball := { x := 10, y := 0, z := -13, velocityX := 2, velocityZ := -3 }

/-- Example fixture: a ball on player 2's paddle plane. -/
def ballW2 : Ball := { x := 0, y := 0, z := 13, velocityX := 0, velocityZ := 4 }

lemma clampPaddleX_mem (q : ℚ) : -8 ≤ clampPaddleX q ∧ clampPaddleX q ≤ 8 := by
  unfold clampPaddleX
  constructor
  · exact le_max_left _ _
  · exact max_le (by norm_num) (min_le_left _ _)

/-- C3: while a game is in progress, a non-finite or non-number paddle
input is dropped (state and emissions unchanged), while a finite input
`q` is applied and relayed as `clamp(q, -8, 8)` (with
`maxX = (20 - 4) / 2 = 8`), so the stored paddle position always lands
in `[-8, 8]`; in particular raw input 1000 is applied as 8. -/
theorem C3_paddle_validation (room : GameRoom) (userId : ℕ) (x : PaddleInput)
    (hs : room.gameStarted = true) (he : room.gameEnded = false) :
    (x.isFiniteNumber = false → updatePaddle room userId x = (room, [])) ∧
    (∀ q : ℚ, x = PaddleInput.finite q → room.player1.userId = userId →
      (updatePaddle room userId x).1.player1.paddleX = clampPaddleX q ∧
      (updatePaddle room userId x).2 =
        [Event.opponentPaddleMove room.player2.userId (clampPaddleX q)]) ∧
    (∀ q : ℚ, x = PaddleInput.finite q → room.player1.userId ≠ userId →
      room.player2.userId = userId →
      (updatePaddle room userId x).1.player2.paddleX = clampPaddleX q ∧
      (updatePaddle room userId x).2 =
        [Event.opponentPaddleMove room.player1.userId (clampPaddleX q)]) ∧
    (∀ q : ℚ, -8 ≤ clampPaddleX q ∧ clampPaddleX q ≤ 8) ∧
    clampPaddleX 1000 = 8 := by
  refine ⟨?_, ?_, ?_, fun q => clampPaddleX_mem q, by decide⟩
  · intro hx
    cases x with
    | finite q => simp [PaddleInput.isFiniteNumber] at hx
    | nan => simp [updatePaddle, hs, he]
    | posInf => simp [updatePaddle, hs, he]
    | negInf => simp [updatePaddle, hs, he]
    | nonNumber => simp [updatePaddle, hs, he]
  · rintro q rfl h1
    simp [updatePaddle, hs, he, h1]
  · rintro q rfl h1 h2
    simp [updatePaddle, hs, he, h1, h2]

theorem C3_paddle_validation_witness :
    roomA.gameStarted = true ∧ roomA.gameEnded = false ∧
    roomA.player1.userId = 1 ∧
    ((updatePaddle roomA 1 (PaddleInput.finite 1000)).1.player1.paddleX =
       clampPaddleX 1000 ∧
     (updatePaddle roomA 1 (PaddleInput.finite 1000)).2 =
       [Event.opponentPaddleMove roomA.player2.userId (clampPaddleX 1000)]) ∧
    updatePaddle roomA 1 PaddleInput.nan = (roomA, []) ∧
    clampPaddleX 1000 = 8 :=
  ⟨rfl, rfl, rfl,
   (C3_paddle_validation roomA 1 (PaddleInput.finite 1000) rfl rfl).2.1 1000 rfl rfl,
   (C3_paddle_validation roomA 1 PaddleInput.nan rfl rfl).1 rfl,
   (C3_paddle_validation roomA 1 PaddleInput.nan rfl rfl).2.2.2.2⟩

/-- C8 counterexample: player 1's stored paddle position in `roomA` is
already 8, and the validated value of raw input 8 is again 8 — yet
`updatePaddle` still emits an `opponentPaddleMove` relay, contradicting
the claim that the relay is sent only when the validated position
changed. -/
theorem C8_relay_counterexample :
    roomA.player1.paddleX = 8 ∧ clampPaddleX 8 = 8 ∧
    (updatePaddle roomA 1 (PaddleInput.finite 8)).1.player1.paddleX =
      roomA.player1.paddleX ∧
    (updatePaddle roomA 1 (PaddleInput.finite 8)).2 =
      [Event.opponentPaddleMove 2 8] := by
  refine ⟨rfl, by decide, by decide, by decide⟩

/-- C8 (amended): a validated paddle position is relayed as an
`opponentPaddleMove` event to the opponent's connection only (never
echoed to the sender), carrying the clamped value — but the relay is
emitted on every applied update, whether or not the validated position
differs from the previously stored one. -/
theorem C8_relay_amended (room : GameRoom) (userId : ℕ) (q : ℚ)
    (hs : room.gameStarted = true) (he : room.gameEnded = false)
    (hne : room.player1.userId ≠ room.player2.userId) :
    (room.player1.userId = userId →
      (updatePaddle room userId (PaddleInput.finite q)).2 =
        [Event.opponentPaddleMove room.player2.userId (clampPaddleX q)] ∧
      Event.opponentPaddleMove room.player1.userId (clampPaddleX q) ∉
        (updatePaddle room userId (PaddleInput.finite q)).2) ∧
    (room.player1.userId ≠ userId → room.player2.userId = userId →
      (updatePaddle room userId (PaddleInput.finite q)).2 =
        [Event.opponentPaddleMove room.player1.userId (clampPaddleX q)] ∧
      Event.opponentPaddleMove room.player2.userId (clampPaddleX q) ∉
        (updatePaddle room userId (PaddleInput.finite q)).2) := by
  constructor
  · intro h1
    have hev : (updatePaddle room userId (PaddleInput.finite q)).2 =
        [Event.opponentPaddleMove room.player2.userId (clampPaddleX q)] := by
      simp [updatePaddle, hs, he, h1]
    refine ⟨hev, ?_⟩
    rw [hev]
    simp only [List.mem_singleton]
    intro hcontra
    apply hne
    injection hcontra
  · intro h1 h2
    have hev : (updatePaddle room userId (PaddleInput.finite q)).2 =
        [Event.opponentPaddleMove room.player1.userId (clampPaddleX q)] := by
      simp [updatePaddle, hs, he, h1, h2]
    refine ⟨hev, ?_⟩
    rw [hev]
    simp only [List.mem_singleton]
    intro hcontra
    have h4 : room.player2.userId = room.player1.userId := by injection hcontra
    exact hne h4.symm

theorem C8_relay_amended_witness :
    roomA.gameStarted = true ∧ roomA.gameEnded = false ∧
    roomA.player1.userId ≠ roomA.player2.userId ∧
    roomA.player1.userId = 1 ∧
    ((updatePaddle roomA 1 (PaddleInput.finite 3)).2 =
       [Event.opponentPaddleMove roomA.player2.userId (clampPaddleX 3)] ∧
     Event.opponentPaddleMove roomA.player1.userId (clampPaddleX 3) ∉
       (updatePaddle roomA 1 (PaddleInput.finite 3)).2) :=
  ⟨rfl, rfl, by decide, rfl,
   (C8_relay_amended roomA 1 3 rfl rfl (by decide)).1 rfl⟩

/-- C10: once a room's game has started, a further `ready` signal from
any player emits nothing — no second `gameStart`, no second
`createSession` call — and leaves the ball, session id, start time,
loop and scores untouched; the game stays started. -/
theorem C10_start_idempotent (room : GameRoom) (userId : ℕ) (now : ℤ)
    (sessionRes : Option ℕ) (r1 r2 : ℚ) (h : room.gameStarted = true) :
    (setPlayerReadyRoom now sessionRes r1 r2 room userId).2 = [] ∧
    (setPlayerReadyRoom now sessionRes r1 r2 room userId).1.gameStarted = true ∧
    (setPlayerReadyRoom now sessionRes r1 r2 room userId).1.ball = room.ball ∧
    (setPlayerReadyRoom now sessionRes r1 r2 room userId).1.gameSessionId =
      room.gameSessionId ∧
    (setPlayerReadyRoom now sessionRes r1 r2 room userId).1.startTime =
      room.startTime ∧
    (setPlayerReadyRoom now sessionRes r1 r2 room userId).1.loopRunning =
      room.loopRunning ∧
    (setPlayerReadyRoom now sessionRes r1 r2 room userId).1.player1.score =
      room.player1.score ∧
    (setPlayerReadyRoom now sessionRes r1 r2 room userId).1.player2.score =
      room.player2.score := by
  unfold setPlayerReadyRoom
  split_ifs <;> simp_all

theorem C10_start_idempotent_witness :
    roomA.gameStarted = true ∧
    (setPlayerReadyRoom 2000 (some 9) 0 0 roomA 1).2 = [] ∧
    (setPlayerReadyRoom 2000 (some 9) 0 0 roomA 1).1.gameSessionId =
      roomA.gameSessionId :=
  ⟨rfl, (C10_start_idempotent roomA 1 2000 (some 9) 0 0 rfl).1,
   (C10_start_idempotent roomA 1 2000 (some 9) 0 0 rfl).2.2.2.1⟩

/-- C9 counterexample: a `ready` signal from player 7, who belongs to no
room, produces no event at all — in particular no `error` event reaches
the offending client, contradicting the claim; `setPlayerReady` just
returns silently (the registry is indeed left unchanged). -/
theorem C9_misuse_counterexample :
    setPlayerReadyM mgrEmpty 7 0 none 0 0 = (mgrEmpty, []) := rfl

/-- C9 (amended): an unauthenticated connection (missing, zero or empty
`userId`/`userName`) receives an `error` event and is disconnected; a
`joinQueue` from a player already queued receives an `error` event and
leaves the queue unchanged; a `ready` signal from a player who belongs
to no room is silently ignored — no event is emitted and no state
changes. -/
theorem C9_misuse_amended (socketId : ℕ) (authUserId : Option ℕ)
    (authUserName : Option String) (mm : MatchmakingState) (userId : ℕ)
    (userName : String) (now : ℤ) (freshRoomId : String) (m : Manager)
    (sessionRes : Option ℕ) (r1 r2 : ℚ)
    (hauth : authUserId = none ∨ authUserId = some 0 ∨
      authUserName = none ∨ authUserName = some "")
    (hdup : mm.queue.any (fun p => p.userId == userId) = true)
    (hnoroom : getRoomByPlayer m userId = none) :
    connectionHandler socketId authUserId authUserName =
      (none, [Event.errorEvt socketId "Authentication required",
              Event.socketDisconnect socketId]) ∧
    addToQueue mm userId userName now freshRoomId =
      (mm, [Event.errorEvt userId "Already in queue"]) ∧
    setPlayerReadyM m userId now sessionRes r1 r2 = (m, []) := by
  refine ⟨?_, ?_, ?_⟩
  · rcases hauth with h | h | h | h
    · subst h; cases authUserName <;> simp [connectionHandler]
    · subst h; cases authUserName <;> simp [connectionHandler]
    · subst h; cases authUserId <;> simp [connectionHandler]
    · subst h; cases authUserId <;> simp [connectionHandler]
  · simp [addToQueue, hdup]
  · simp [setPlayerReadyM, hnoroom]

theorem C9_misuse_amended_witness :
    ((some 0 : Option ℕ) = none ∨ (some 0 : Option ℕ) = some 0 ∨
      (some "x" : Option String) = none ∨ (some "x" : Option String) = some "") ∧
    mmQ.queue.any (fun p => p.userId == 9) = true ∧
    getRoomByPlayer mgrEmpty 9 = none ∧
    (connectionHandler 42 (some 0) (some "x") =
      (none, [Event.errorEvt 42 "Authentication required",
              Event.socketDisconnect 42]) ∧
     addToQueue mmQ 9 "carol" 200 "room-x" =
      (mmQ, [Event.errorEvt 9 "Already in queue"]) ∧
     setPlayerReadyM mgrEmpty 9 0 none 0 0 = (mgrEmpty, [])) :=
  ⟨Or.inr (Or.inl rfl), by decide, rfl,
   C9_misuse_amended 42 (some 0) (some "x") mmQ 9 "carol" 200 "room-x"
     mgrEmpty none 0 0 (Or.inr (Or.inl rfl)) (by decide) rfl⟩

/-- C5: if `createSession` throws during the Waiting-to-Playing
transition the transition still completes — `gameStart` goes to both
players, the ball gets its serve velocity, the loop starts — with
`gameSessionId` left unset; and at game end a room without a session id
makes no `completeSession` call, while a room with a (truthy) session
id and start time calls it with that id, both final scores and the
elapsed whole seconds. -/
theorem C5_session_best_effort (room roomE : GameRoom) (now now2 : ℤ)
    (r1 r2 : ℚ) (sid : ℕ) (t0 : ℤ)
    (hfresh : room.gameSessionId = none) (he : roomE.gameEnded = false) :
    ((startGame now none r1 r2 room).1.gameStarted = true ∧
     (startGame now none r1 r2 room).1.gameSessionId = none ∧
     (startGame now none r1 r2 room).1.loopRunning = true ∧
     (startGame now none r1 r2 room).1.ball = resetBall r1 r2 ∧
     (startGame now none r1 r2 room).2 =
       [Event.createSessionCall room.player1.userId room.player2.userId,
        Event.gameStart room.player1.userId room.player1.userName
          room.player2.userName true,
        Event.gameStart room.player2.userId room.player1.userName
          room.player2.userName false]) ∧
    (roomE.gameSessionId = none →
      countCompleteSession (endGame now2 roomE).2 = 0) ∧
    (roomE.gameSessionId = some sid → sid ≠ 0 →
      roomE.startTime = some t0 → t0 ≠ 0 →
      (endGame now2 roomE).2 =
        [Event.completeSessionCall sid roomE.player1.score
           roomE.player2.score (Int.fdiv (now2 - t0) 1000),
         Event.gameEnd roomE.id
           (if roomE.player2.score < roomE.player1.score then
              roomE.player1.userId else roomE.player2.userId)
           roomE.player1.score roomE.player2.score]) := by
  refine ⟨?_, ?_, ?_⟩
  · simp [startGame, hfresh]
  · intro hnone
    simp [endGame, he, completionEvents, hnone, countCompleteSession]
  · intro hsid hsid0 ht0 ht00
    simp [endGame, he, completionEvents, hsid, hsid0, ht0, ht00]

theorem C5_session_best_effort_witness :
    roomFresh.gameSessionId = none ∧ roomA.gameEnded = false ∧
    (startGame 1000 none 0 0 roomFresh).1.gameSessionId = none ∧
    (startGame 1000 none 0 0 roomFresh).1.gameStarted = true ∧
    (roomA.gameSessionId = some 5 → (5 : ℕ) ≠ 0 →
      roomA.startTime = some 1000 → (1000 : ℤ) ≠ 0 →
      (endGame 3000 roomA).2 =
        [Event.completeSessionCall 5 roomA.player1.score roomA.player2.score
           (Int.fdiv (3000 - 1000) 1000),
         Event.gameEnd roomA.id
           (if roomA.player2.score < roomA.player1.score then
              roomA.player1.userId else roomA.player2.userId)
           roomA.player1.score roomA.player2.score]) :=
  ⟨rfl, rfl,
   (C5_session_best_effort roomFresh roomA 1000 3000 0 0 5 1000 rfl rfl).1.2.1,
   (C5_session_best_effort roomFresh roomA 1000 3000 0 0 5 1000 rfl rfl).1.1,
   (C5_session_best_effort roomFresh roomA 1000 3000 0 0 5 1000 rfl rfl).2.2⟩

lemma abs_neg_factor (v : ℚ) : |v * (-(21/20 : ℚ))| = (21/20 : ℚ) * |v| := by
  rw [abs_mul, mul_comm]
  norm_num

/-- C7: in every simulation tick (`updateGameState` decomposes into the
move, wall, paddle and score blocks when the game has not ended), a
wall bounce negates `velocityX` leaving its magnitude unchanged and
clamps the ball to the touched bound, and a paddle hit multiplies
`velocityZ` by `-1.05`, so its magnitude grows to exactly 1.05 times
the pre-hit magnitude (in particular it never decreases) with the sign
inverted. -/
theorem C7_ball_physics (b : Ball) (p1x p2x : ℚ) (room : GameRoom)
    (now : ℤ) (r1 r2 : ℚ) :
    ((b.x ≤ -(19/2 : ℚ) ∨ (19/2 : ℚ) ≤ b.x) →
      (wallBounce b).velocityX = -b.velocityX ∧
      |(wallBounce b).velocityX| = |b.velocityX| ∧
      (wallBounce b).x =
        (if b.x ≤ -(19/2 : ℚ) then -(19/2 : ℚ) else (19/2 : ℚ)) ∧
      (wallBounce b).velocityZ = b.velocityZ) ∧
    ((|b.z - (-13 : ℚ)| < 1 ∧ |b.x - p1x| < 2) →
      (paddle1Hit p1x b).velocityZ = -(21/20 : ℚ) * b.velocityZ ∧
      |(paddle1Hit p1x b).velocityZ| = (21/20 : ℚ) * |b.velocityZ| ∧
      |b.velocityZ| ≤ |(paddle1Hit p1x b).velocityZ|) ∧
    ((|b.z - (13 : ℚ)| < 1 ∧ |b.x - p2x| < 2) →
      (paddle2Hit p2x b).velocityZ = -(21/20 : ℚ) * b.velocityZ ∧
      |(paddle2Hit p2x b).velocityZ| = (21/20 : ℚ) * |b.velocityZ| ∧
      |b.velocityZ| ≤ |(paddle2Hit p2x b).velocityZ|) ∧
    (room.gameEnded = false →
      updateGameState now r1 r2 room =
        scoreCheck now r1 r2 { room with
          ball := paddle2Hit room.player2.paddleX
            (paddle1Hit room.player1.paddleX
              (wallBounce (moveBall room.ball))) }) := by
  refine ⟨?_, ?_, ?_, ?_⟩
  · intro hcond
    unfold wallBounce
    rw [if_pos hcond]
    refine ⟨by ring, ?_, rfl, rfl⟩
    rw [abs_mul]
    norm_num
  · intro hcond
    unfold paddle1Hit
    rw [if_pos hcond]
    refine ⟨by ring, abs_neg_factor _, ?_⟩
    rw [abs_neg_factor]
    exact le_mul_of_one_le_left (abs_nonneg _) (by norm_num)
  · intro hcond
    unfold paddle2Hit
    rw [if_pos hcond]
    refine ⟨by ring, abs_neg_factor _, ?_⟩
    rw [abs_neg_factor]
    exact le_mul_of_one_le_left (abs_nonneg _) (by norm_num)
  · intro hend
    unfold updateGameState
    rw [if_neg (by simp [hend])]

theorem C7_ball_physics_witness :
    ((19/2 : ℚ) ≤ ballW1.x) ∧
    (|ballW1.z - (-13 : ℚ)| < 1 ∧ |ballW1.x - (9 : ℚ)| < 2) ∧
    (|ballW2.z - (13 : ℚ)| < 1 ∧ |ballW2.x - (0 : ℚ)| < 2) ∧
    roomA.gameEnded = false ∧
    (wallBounce ballW1).velocityX = -ballW1.velocityX ∧
    (paddle1Hit 9 ballW1).velocityZ = -(21/20 : ℚ) * ballW1.velocityZ ∧
    (paddle2Hit 0 ballW2).velocityZ = -(21/20 : ℚ) * ballW2.velocityZ ∧
    updateGameState 0 0 0 roomA =
      scoreCheck 0 0 0 { roomA with
        ball := paddle2Hit roomA.player2.paddleX
          (paddle1Hit roomA.player1.paddleX
            (wallBounce (moveBall roomA.ball))) } :=
  ⟨by norm_num [ballW1], by norm_num [ballW1], by norm_num [ballW2], rfl,
   ((C7_ball_physics ballW1 9 0 roomA 0 0 0).1
      (Or.inr (by norm_num [ballW1]))).1,
   ((C7_ball_physics ballW1 9 0 roomA 0 0 0).2.1
      (by norm_num [ballW1])).1,
   ((C7_ball_physics ballW2 9 0 roomA 0 0 0).2.2.1
      (by norm_num [ballW2])).1,
   (C7_ball_physics ballW1 9 0 roomA 0 0 0).2.2.2 rfl⟩

lemma removeFirstByUser_length_le (l : List QueuedPlayer) (uid : ℕ) :
    (removeFirstByUser l uid).length ≤ l.length := by
  induction l with
  | nil => simp [removeFirstByUser]
  | cons p ps ih =>
      unfold removeFirstByUser
      split_ifs <;> simp <;> omega

lemma tryMatch_cons_cons (mgr : Manager) (a b : QueuedPlayer)
    (rest : List QueuedPlayer) (rid : String) (now : ℤ) :
    tryMatch { queue := a :: b :: rest, mgr := mgr } rid now =
      ({ queue := rest,
         mgr := createRoom mgr rid now (a.userId, a.userName)
           (b.userId, b.userName) },
       [Event.matchFound a.userId b.userName rid,
        Event.matchFound b.userId a.userName rid]) := by
  unfold tryMatch
  split_ifs with h
  · simp at h
    omega
  · rfl

lemma queueStep_length (mm : MatchmakingState) (op : QueueOp)
    (h : mm.queue.length ≤ 1) : (queueStep mm op).1.queue.length ≤ 1 := by
  cases op with
  | enq uid nm now rid =>
      simp only [queueStep]
      unfold addToQueue
      split_ifs with hdup
      · simpa using h
      · rcases hq : mm.queue with _ | ⟨p, l⟩
        · simp [tryMatch, hq]
        · have hl : l = [] := by
            rw [hq] at h
            simpa using h
          subst hl
          simp only [hq, List.cons_append, List.nil_append]
          rw [tryMatch_cons_cons]
          simp
  | deq uid =>
      simp only [queueStep]
      unfold removeFromQueue
      split_ifs
      · simpa using le_trans (removeFirstByUser_length_le _ _) h
      · exact h

lemma runQueue_length (mm : MatchmakingState) (ops : List QueueOp)
    (h : mm.queue.length ≤ 1) : (runQueue mm ops).1.queue.length ≤ 1 := by
  induction ops generalizing mm with
  | nil => simpa [runQueue] using h
  | cons op ops ih =>
      simp only [runQueue]
      exact ih _ (queueStep_length mm op h)

/-- C2: matchmaking is strict FIFO — a lone enqueued player is not
paired; after a successful enqueue that brings the queue to two or more
entries, the two entries at the front (the two longest-waiting) are
removed and handed to room creation with `matchFound` sent to both; and
from any reachable state (queue length at most 1) every
enqueue/dequeue trace keeps the queue at length at most 1, so the first
two players enqueued are always paired before a third is considered. -/
theorem C2_fifo_matchmaking (mm : MatchmakingState) (userId : ℕ)
    (userName : String) (now : ℤ) (freshRoomId : String)
    (a b : QueuedPlayer) (rest : List QueuedPlayer)
    (hnotin : mm.queue.any (fun p => p.userId == userId) = false) :
    (mm.queue = [] →
      addToQueue mm userId userName now freshRoomId =
        ({ queue := [QueuedPlayer.mk userId userName now], mgr := mm.mgr },
         [Event.queueJoined userId])) ∧
    (mm.queue ++ [QueuedPlayer.mk userId userName now] = a :: b :: rest →
      (addToQueue mm userId userName now freshRoomId).1.queue = rest ∧
      (addToQueue mm userId userName now freshRoomId).1.mgr =
        createRoom mm.mgr freshRoomId now (a.userId, a.userName)
          (b.userId, b.userName) ∧
      (addToQueue mm userId userName now freshRoomId).2 =
        [Event.queueJoined userId,
         Event.matchFound a.userId b.userName freshRoomId,
         Event.matchFound b.userId a.userName freshRoomId]) ∧
    (∀ (mm' : MatchmakingState) (ops : List QueueOp),
      mm'.queue.length ≤ 1 → (runQueue mm' ops).1.queue.length ≤ 1) := by
  refine ⟨?_, ?_, fun mm' ops h => runQueue_length mm' ops h⟩
  · intro hq
    unfold addToQueue
    split_ifs with hdup
    · rw [hnotin] at hdup; exact absurd hdup (by simp)
    · simp [tryMatch, hq]
  · intro hq
    unfold addToQueue
    split_ifs with hdup
    · rw [hnotin] at hdup; exact absurd hdup (by simp)
    · rw [show ({ mm with queue :=
            mm.queue ++ [QueuedPlayer.mk userId userName now] } :
            MatchmakingState) =
          { queue := a :: b :: rest, mgr := mm.mgr } from by rw [← hq]]
      simp [tryMatch_cons_cons]

theorem C2_fifo_matchmaking_witness :
    mmQ.queue.any (fun p => p.userId == 4) = false ∧
    mmQ.queue ++ [QueuedPlayer.mk 4 "dave" 200] =
      QueuedPlayer.mk 9 "carol" 100 :: QueuedPlayer.mk 4 "dave" 200 :: [] ∧
    ((addToQueue mmQ 4 "dave" 200 "room-x").1.queue = [] ∧
     (addToQueue mmQ 4 "dave" 200 "room-x").1.mgr =
       createRoom mmQ.mgr "room-x" 200 (9, "carol") (4, "dave") ∧
     (addToQueue mmQ 4 "dave" 200 "room-x").2 =
       [Event.queueJoined 4, Event.matchFound 9 "dave" "room-x",
        Event.matchFound 4 "carol" "room-x"]) :=
  ⟨by decide, rfl,
   (C2_fifo_matchmaking mmQ 4 "dave" 200 "room-x"
      { userId := 9, userName := "carol", queuedAt := 100 }
      { userId := 4, userName := "dave", queuedAt := 200 } []
      (by decide)).2.1 rfl⟩

lemma mapGet_mapDelete {α β : Type} [DecidableEq α] (l : List (α × β))
    (k k' : α) :
    mapGet (mapDelete l k') k = if k = k' then none else mapGet l k := by
  induction l with
  | nil => simp [mapDelete, mapGet]
  | cons p ps ih =>
      simp only [mapDelete, mapGet]
      by_cases h1 : p.1 = k' <;> by_cases h2 : k = k' <;>
        by_cases h3 : p.1 = k <;>
        simp [mapGet, h1, h2, h3, ih] <;> simp_all

/-- C4: a disconnect by either player of a registered, not-yet-ended
room notifies the surviving player with exactly one
`opponentDisconnected` event (and no `completeSession` call), removes
the room and both player-to-room mappings from the registry, and stops
the room's game loop. -/
theorem C4_disconnect_destroys (m : Manager) (userId : ℕ) (rid : String)
    (room : GameRoom)
    (h1 : mapGet m.playerToRoom userId = some rid)
    (h2 : mapGet m.rooms rid = some room)
    (h3 : room.id = rid)
    (h4 : room.gameEnded = false) :
    (handleDisconnect m userId).2.2 =
      [Event.opponentDisconnected
        (if room.player1.userId = userId then room.player2.userId
         else room.player1.userId)] ∧
    countCompleteSession (handleDisconnect m userId).2.2 = 0 ∧
    mapGet (handleDisconnect m userId).1.rooms rid = none ∧
    mapGet (handleDisconnect m userId).1.playerToRoom
      room.player1.userId = none ∧
    mapGet (handleDisconnect m userId).1.playerToRoom
      room.player2.userId = none ∧
    (handleDisconnect m userId).2.1 =
      some { room with loopRunning := false } := by
  have hd : handleDisconnect m userId =
      ({ rooms := mapDelete m.rooms rid,
         playerToRoom := mapDelete
           (mapDelete m.playerToRoom room.player1.userId)
           room.player2.userId },
       some { room with loopRunning := false },
       [Event.opponentDisconnected
         (if room.player1.userId = userId then room.player2.userId
          else room.player1.userId)]) := by
    simp only [handleDisconnect, getRoomByPlayer, destroyRoom, h1, h2, h3]
  rw [hd]
  refine ⟨rfl, by simp [countCompleteSession], ?_, ?_, ?_, rfl⟩
  · simp [mapGet_mapDelete]
  · simp [mapGet_mapDelete]
  · simp [mapGet_mapDelete]

theorem C4_disconnect_destroys_witness :
    mapGet mgrA.playerToRoom 1 = some "room-a" ∧
    mapGet mgrA.rooms "room-a" = some roomA ∧
    roomA.id = "room-a" ∧ roomA.gameEnded = false ∧
    ((handleDisconnect mgrA 1).2.2 =
      [Event.opponentDisconnected
        (if roomA.player1.userId = 1 then roomA.player2.userId
         else roomA.player1.userId)] ∧
     countCompleteSession (handleDisconnect mgrA 1).2.2 = 0 ∧
     mapGet (handleDisconnect mgrA 1).1.rooms "room-a" = none ∧
     mapGet (handleDisconnect mgrA 1).1.playerToRoom
       roomA.player1.userId = none ∧
     mapGet (handleDisconnect mgrA 1).1.playerToRoom
       roomA.player2.userId = none ∧
     (handleDisconnect mgrA 1).2.1 =
       some { roomA with loopRunning := false }) :=
  ⟨rfl, rfl, rfl, rfl,
   C4_disconnect_destroys mgrA 1 "room-a" roomA rfl rfl rfl rfl⟩

lemma countCompleteSession_append (l1 l2 : List Event) :
    countCompleteSession (l1 ++ l2) =
      countCompleteSession l1 + countCompleteSession l2 := by
  induction l1 with
  | nil => simp [countCompleteSession]
  | cons e es ih => cases e <;> simp [countCompleteSession, ih] <;> omega

lemma countGameEnd_append (l1 l2 : List Event) :
    countGameEnd (l1 ++ l2) = countGameEnd l1 + countGameEnd l2 := by
  induction l1 with
  | nil => simp [countGameEnd]
  | cons e es ih => cases e <;> simp [countGameEnd, ih] <;> omega

lemma completionEvents_counts (now : ℤ) (room : GameRoom) :
    countCompleteSession (completionEvents now room) ≤ 1 ∧
    countGameEnd (completionEvents now room) = 0 := by
  unfold completionEvents
  rcases hs : room.gameSessionId with _ | sid
  · simp [countCompleteSession, countGameEnd]
  · rcases ht : room.startTime with _ | t0
    · simp [countCompleteSession, countGameEnd]
    · by_cases hcond : sid ≠ 0 ∧ t0 ≠ 0 <;>
        simp [hcond, countCompleteSession, countGameEnd]

lemma endGame_eq_not_ended (now : ℤ) (room : GameRoom)
    (h : room.gameEnded = false) :
    endGame now room =
      ({ room with gameEnded := true, loopRunning := false },
       completionEvents now room ++
         [Event.gameEnd room.id
           (if room.player2.score < room.player1.score then
              room.player1.userId else room.player2.userId)
           room.player1.score room.player2.score]) := by
  simp [endGame, h]

lemma endGame_core (now : ℤ) (room : GameRoom) :
    (endGame now room).1.player1.score = room.player1.score ∧
    (endGame now room).1.player2.score = room.player2.score ∧
    (endGame now room).1.gameEnded = true ∧
    countCompleteSession (endGame now room).2 ≤ 1 ∧
    countGameEnd (endGame now room).2 ≤ 1 ∧
    (room.gameEnded = true → endGame now room = (room, [])) := by
  obtain ⟨hc1, hc2⟩ := completionEvents_counts now room
  cases hend : room.gameEnded with
  | true => simp [endGame, hend, countCompleteSession, countGameEnd]
  | false =>
      rw [endGame_eq_not_ended now room hend]
      refine ⟨rfl, rfl, rfl, ?_, ?_, fun hcontra => by simp [hend] at hcontra⟩
      · rw [countCompleteSession_append]
        simpa [countCompleteSession] using hc1
      · rw [countGameEnd_append]
        simp [countGameEnd, hc2]

lemma handleScore_core (now : ℤ) (r1 r2 : ℚ) (room : GameRoom) :
    (handleScore now r1 r2 room).1.player1.score = room.player1.score ∧
    (handleScore now r1 r2 room).1.player2.score = room.player2.score ∧
    countCompleteSession (handleScore now r1 r2 room).2 ≤ 1 ∧
    countGameEnd (handleScore now r1 r2 room).2 ≤ 1 ∧
    (room.gameEnded = true → handleScore now r1 r2 room = (room, [])) ∧
    ((handleScore now r1 r2 room).1.gameEnded = false →
      room.gameEnded = false ∧
      countCompleteSession (handleScore now r1 r2 room).2 = 0 ∧
      countGameEnd (handleScore now r1 r2 room).2 = 0) := by
  obtain ⟨e1, e2, e3, e4, e5, e6⟩ := endGame_core now room
  unfold handleScore
  split_ifs with h1 h2
  · simp_all [countCompleteSession, countGameEnd]
  · refine ⟨e1, e2, ?_, ?_, fun hcontra => absurd hcontra h1, ?_⟩
    · simpa [countCompleteSession] using e4
    · simpa [countGameEnd] using e5
    · intro hend
      rw [e3] at hend
      exact absurd hend (by simp)
  · refine ⟨rfl, rfl, ?_, ?_, fun hcontra => absurd hcontra h1, ?_⟩
    · simp [countCompleteSession]
    · simp [countGameEnd]
    · intro _
      refine ⟨by simpa using h1, by simp [countCompleteSession],
        by simp [countGameEnd]⟩

lemma scoreCheck_core (now : ℤ) (r1 r2 : ℚ) (room : GameRoom)
    (h : room.gameEnded = false) :
    room.player1.score ≤ (scoreCheck now r1 r2 room).1.player1.score ∧
    room.player2.score ≤ (scoreCheck now r1 r2 room).1.player2.score ∧
    (scoreCheck now r1 r2 room).1.player1.score +
      (scoreCheck now r1 r2 room).1.player2.score ≤
      room.player1.score + room.player2.score + 1 ∧
    countCompleteSession (scoreCheck now r1 r2 room).2 ≤ 1 ∧
    countGameEnd (scoreCheck now r1 r2 room).2 ≤ 1 ∧
    ((scoreCheck now r1 r2 room).1.gameEnded = false →
      countCompleteSession (scoreCheck now r1 r2 room).2 = 0 ∧
      countGameEnd (scoreCheck now r1 r2 room).2 = 0) := by
  unfold scoreCheck
  split_ifs with hz1 hz2
  · obtain ⟨f1, f2, f3, f4, _, f6⟩ := handleScore_core now r1 r2
      { room with player2 :=
          { room.player2 with score := room.player2.score + 1 } }
    refine ⟨?_, ?_, ?_, f3, f4, fun hend => (f6 hend).2⟩
    · simp [f1]
    · simp [f2]
    · simp [f1, f2]
      try omega
  · obtain ⟨f1, f2, f3, f4, _, f6⟩ := handleScore_core now r1 r2
      { room with player1 :=
          { room.player1 with score := room.player1.score + 1 } }
    refine ⟨?_, ?_, ?_, f3, f4, fun hend => (f6 hend).2⟩
    · simp [f1]
    · simp [f2]
    · simp [f1, f2]
      try omega
  · simp [countCompleteSession, countGameEnd]

lemma updateGameState_core (now : ℤ) (r1 r2 : ℚ) (room : GameRoom) :
    room.player1.score ≤ (updateGameState now r1 r2 room).1.player1.score ∧
    room.player2.score ≤ (updateGameState now r1 r2 room).1.player2.score ∧
    (updateGameState now r1 r2 room).1.player1.score +
      (updateGameState now r1 r2 room).1.player2.score ≤
      room.player1.score + room.player2.score + 1 ∧
    countCompleteSession (updateGameState now r1 r2 room).2 ≤ 1 ∧
    countGameEnd (updateGameState now r1 r2 room).2 ≤ 1 ∧
    (room.gameEnded = true → updateGameState now r1 r2 room = (room, [])) ∧
    ((updateGameState now r1 r2 room).1.gameEnded = false →
      countCompleteSession (updateGameState now r1 r2 room).2 = 0 ∧
      countGameEnd (updateGameState now r1 r2 room).2 = 0) := by
  unfold updateGameState
  split_ifs with h
  · simp_all [countCompleteSession, countGameEnd]
  · have hb : ∀ b : Ball, ({ room with ball := b } : GameRoom).gameEnded = false := by
      simp [Bool.not_eq_true] at h
      simp [h]
    obtain ⟨g1, g2, g3, g4, g5, g6⟩ := scoreCheck_core now r1 r2
      { room with ball := (paddle2Hit room.player2.paddleX
        (paddle1Hit room.player1.paddleX (wallBounce (moveBall room.ball)))) }
      (hb _)
    exact ⟨g1, g2, g3, g4, g5, fun hcontra => absurd hcontra h, g6⟩

lemma gameLoopTick_core (now : ℤ) (r1 r2 : ℚ) (room : GameRoom) :
    room.player1.score ≤ (gameLoopTick now r1 r2 room).1.player1.score ∧
    room.player2.score ≤ (gameLoopTick now r1 r2 room).1.player2.score ∧
    (gameLoopTick now r1 r2 room).1.player1.score +
      (gameLoopTick now r1 r2 room).1.player2.score ≤
      room.player1.score + room.player2.score + 1 ∧
    countCompleteSession (gameLoopTick now r1 r2 room).2 ≤ 1 ∧
    countGameEnd (gameLoopTick now r1 r2 room).2 ≤ 1 ∧
    (room.gameEnded = true →
      gameLoopTick now r1 r2 room = ({ room with loopRunning := false }, [])) ∧
    ((gameLoopTick now r1 r2 room).1.gameEnded = false →
      countCompleteSession (gameLoopTick now r1 r2 room).2 = 0 ∧
      countGameEnd (gameLoopTick now r1 r2 room).2 = 0) := by
  obtain ⟨g1, g2, g3, g4, g5, g6, g7⟩ := updateGameState_core now r1 r2 room
  unfold gameLoopTick
  split_ifs with h
  · simp_all [countCompleteSession, countGameEnd]
  · refine ⟨by simpa using g1, by simpa using g2, by simpa using g3, ?_, ?_,
      fun hcontra => absurd hcontra h, ?_⟩
    · rw [countCompleteSession_append]
      simpa [countCompleteSession] using g4
    · rw [countGameEnd_append]
      simpa [countGameEnd] using g5
    · intro hend
      simp only at hend
      have := g7 (by simpa using hend)
      rw [countCompleteSession_append, countGameEnd_append]
      simp [countCompleteSession, countGameEnd, this.1, this.2]

lemma updatePaddle_core (room : GameRoom) (uid : ℕ) (x : PaddleInput) :
    (updatePaddle room uid x).1.player1.score = room.player1.score ∧
    (updatePaddle room uid x).1.player2.score = room.player2.score ∧
    (updatePaddle room uid x).1.gameEnded = room.gameEnded ∧
    countCompleteSession (updatePaddle room uid x).2 = 0 ∧
    countGameEnd (updatePaddle room uid x).2 = 0 := by
  unfold updatePaddle
  cases x <;> split_ifs <;>
    simp_all [countCompleteSession, countGameEnd]

lemma startGame_core (now : ℤ) (s : Option ℕ) (r1 r2 : ℚ)
    (room : GameRoom) :
    (startGame now s r1 r2 room).1.player1.score = room.player1.score ∧
    (startGame now s r1 r2 room).1.player2.score = room.player2.score ∧
    (startGame now s r1 r2 room).1.gameEnded = room.gameEnded ∧
    countCompleteSession (startGame now s r1 r2 room).2 = 0 ∧
    countGameEnd (startGame now s r1 r2 room).2 = 0 := by
  unfold startGame
  simp [countCompleteSession, countGameEnd]

lemma setPlayerReadyRoom_cases (now : ℤ) (s : Option ℕ) (r1 r2 : ℚ)
    (room : GameRoom) (uid : ℕ) :
    ∃ room1 : GameRoom,
      room1.player1.score = room.player1.score ∧
      room1.player2.score = room.player2.score ∧
      room1.gameEnded = room.gameEnded ∧
      (setPlayerReadyRoom now s r1 r2 room uid =
         startGame now s r1 r2 room1 ∨
       setPlayerReadyRoom now s r1 r2 room uid = (room1, [])) := by
  unfold setPlayerReadyRoom
  dsimp only
  split_ifs <;>
    first
      | (refine ⟨_, ?_, ?_, ?_, Or.inl rfl⟩ <;> simp)
      | (refine ⟨_, ?_, ?_, ?_, Or.inr rfl⟩ <;> simp)

lemma setPlayerReadyRoom_core (now : ℤ) (s : Option ℕ) (r1 r2 : ℚ)
    (room : GameRoom) (uid : ℕ) :
    (setPlayerReadyRoom now s r1 r2 room uid).1.player1.score =
      room.player1.score ∧
    (setPlayerReadyRoom now s r1 r2 room uid).1.player2.score =
      room.player2.score ∧
    (setPlayerReadyRoom now s r1 r2 room uid).1.gameEnded = room.gameEnded ∧
    countCompleteSession (setPlayerReadyRoom now s r1 r2 room uid).2 = 0 ∧
    countGameEnd (setPlayerReadyRoom now s r1 r2 room uid).2 = 0 := by
  obtain ⟨room1, q1, q2, q3, hc⟩ :=
    setPlayerReadyRoom_cases now s r1 r2 room uid
  cases hc with
  | inl hcase =>
      rw [hcase]
      obtain ⟨g1, g2, g3, g4, g5⟩ := startGame_core now s r1 r2 room1
      exact ⟨g1.trans q1, g2.trans q2, g3.trans q3, g4, g5⟩
  | inr hcase =>
      rw [hcase]
      exact ⟨q1, q2, q3, by simp [countCompleteSession],
        by simp [countGameEnd]⟩

lemma roomStep_core (room : GameRoom) (op : RoomOp) :
    room.player1.score ≤ (roomStep room op).1.player1.score ∧
    room.player2.score ≤ (roomStep room op).1.player2.score ∧
    (roomStep room op).1.player1.score + (roomStep room op).1.player2.score ≤
      room.player1.score + room.player2.score + 1 ∧
    countCompleteSession (roomStep room op).2 ≤ 1 ∧
    countGameEnd (roomStep room op).2 ≤ 1 ∧
    (room.gameEnded = true →
      (roomStep room op).1.gameEnded = true ∧
      countCompleteSession (roomStep room op).2 = 0 ∧
      countGameEnd (roomStep room op).2 = 0 ∧
      (roomStep room op).1.player1.score = room.player1.score ∧
      (roomStep room op).1.player2.score = room.player2.score) ∧
    ((roomStep room op).1.gameEnded = false →
      countCompleteSession (roomStep room op).2 = 0 ∧
      countGameEnd (roomStep room op).2 = 0) := by
  cases op with
  | ready uid now s r1 r2 =>
      simp only [roomStep]
      obtain ⟨p1, p2, p3, p4, p5⟩ := setPlayerReadyRoom_core now s r1 r2 room uid
      exact ⟨le_of_eq p1.symm, le_of_eq p2.symm, by omega, by omega, by omega,
        fun hend => ⟨by rw [p3, hend], p4, p5, p1, p2⟩, fun _ => ⟨p4, p5⟩⟩
  | paddle uid x =>
      simp only [roomStep]
      obtain ⟨p1, p2, p3, p4, p5⟩ := updatePaddle_core room uid x
      exact ⟨le_of_eq p1.symm, le_of_eq p2.symm, by omega, by omega, by omega,
        fun hend => ⟨by rw [p3, hend], p4, p5, p1, p2⟩, fun _ => ⟨p4, p5⟩⟩
  | tick now r1 r2 =>
      simp only [roomStep]
      obtain ⟨t1, t2, t3, t4, t5, t6, t7⟩ := gameLoopTick_core now r1 r2 room
      refine ⟨t1, t2, t3, t4, t5, fun hend => ?_, t7⟩
      rw [t6 hend]
      exact ⟨hend, rfl, rfl, rfl, rfl⟩
  | endNow now =>
      simp only [roomStep]
      obtain ⟨e1, e2, e3, e4, e5, e6⟩ := endGame_core now room
      refine ⟨le_of_eq e1.symm, le_of_eq e2.symm, by omega, e4, e5,
        fun hend => ?_, fun hcontra => ?_⟩
      · rw [e6 hend]
        exact ⟨hend, rfl, rfl, rfl, rfl⟩
      · rw [e3] at hcontra
        exact absurd hcontra (by simp)

lemma runRoom_core (ops : List RoomOp) (room : GameRoom) :
    room.player1.score ≤ (runRoom room ops).1.player1.score ∧
    room.player2.score ≤ (runRoom room ops).1.player2.score ∧
    countCompleteSession (runRoom room ops).2 ≤ 1 ∧
    countGameEnd (runRoom room ops).2 ≤ 1 ∧
    (room.gameEnded = true →
      (runRoom room ops).1.gameEnded = true ∧
      countCompleteSession (runRoom room ops).2 = 0 ∧
      countGameEnd (runRoom room ops).2 = 0 ∧
      (runRoom room ops).1.player1.score = room.player1.score ∧
      (runRoom room ops).1.player2.score = room.player2.score) ∧
    ((runRoom room ops).1.gameEnded = false →
      countCompleteSession (runRoom room ops).2 = 0 ∧
      countGameEnd (runRoom room ops).2 = 0) := by
  induction ops generalizing room with
  | nil =>
      refine ⟨le_refl _, le_refl _, by simp [runRoom, countCompleteSession],
        by simp [runRoom, countGameEnd], fun hend => ?_, fun _ => ?_⟩
      · exact ⟨hend, by simp [runRoom, countCompleteSession],
          by simp [runRoom, countGameEnd], rfl, rfl⟩
      · exact ⟨by simp [runRoom, countCompleteSession],
          by simp [runRoom, countGameEnd]⟩
  | cons op ops ih =>
      obtain ⟨s1, s2, s3, c1, c2, hEnd, hNot⟩ := roomStep_core room op
      obtain ⟨t1, t2, d1, d2, iEnd, iNot⟩ := ih (roomStep room op).1
      have hrw : runRoom room (op :: ops) =
          ((runRoom (roomStep room op).1 ops).1,
           (roomStep room op).2 ++ (runRoom (roomStep room op).1 ops).2) := rfl
      rw [hrw]
      rw [countCompleteSession_append, countGameEnd_append]
      refine ⟨le_trans s1 t1, le_trans s2 t2, ?_, ?_, fun hend => ?_,
        fun hlast => ?_⟩
      · cases hmid : (roomStep room op).1.gameEnded with
        | true =>
            have := (iEnd hmid).2.1
            omega
        | false =>
            have := (hNot hmid).1
            omega
      · cases hmid : (roomStep room op).1.gameEnded with
        | true =>
            have := (iEnd hmid).2.2.1
            omega
        | false =>
            have := (hNot hmid).2
            omega
      · obtain ⟨m1, m2, m3, m4, m5⟩ := hEnd hend
        obtain ⟨n1, n2, n3, n4, n5⟩ := iEnd m1
        exact ⟨n1, by omega, by omega, by rw [n4, m4], by rw [n5, m5]⟩
      · cases hmid : (roomStep room op).1.gameEnded with
        | true =>
            have := (iEnd hmid).1
            rw [this] at hlast
            exact absurd hlast (by simp)
        | false =>
            obtain ⟨u1, u2⟩ := hNot hmid
            obtain ⟨v1, v2⟩ := iNot hlast
            omega

/-- C1: over a room's whole lifetime — any sequence of ready signals,
paddle updates, simulation ticks and direct `endGame` invocations
starting from a not-yet-ended room — at most one `completeSession`
persistence call and at most one `gameEnd` broadcast are ever made,
even when the win threshold is reached on adjacent ticks; `endGame`
sets the `gameEnded` flag and stops the loop, and any invocation on an
already-ended room returns immediately emitting nothing. -/
theorem C1_end_transition_once (room : GameRoom) (ops : List RoomOp)
    (now : ℤ) (h : room.gameEnded = false) :
    countCompleteSession (runRoom room ops).2 ≤ 1 ∧
    countGameEnd (runRoom room ops).2 ≤ 1 ∧
    (endGame now room).1.gameEnded = true ∧
    (endGame now room).1.loopRunning = false ∧
    (∀ r' : GameRoom, r'.gameEnded = true → endGame now r' = (r', [])) := by
  obtain ⟨_, _, c1, c2, _, _⟩ := runRoom_core ops room
  refine ⟨c1, c2, (endGame_core now room).2.2.1, ?_,
    fun r' hr' => (endGame_core now r').2.2.2.2.2 hr'⟩
  rw [endGame_eq_not_ended now room h]

theorem C1_end_transition_once_witness :
    roomA.gameEnded = false ∧
    countCompleteSession
      (runRoom roomA [RoomOp.endNow 3000, RoomOp.endNow 4000]).2 ≤ 1 ∧
    countGameEnd
      (runRoom roomA [RoomOp.endNow 3000, RoomOp.endNow 4000]).2 ≤ 1 ∧
    endGame 4000 roomDone = (roomDone, []) :=
  ⟨rfl,
   (C1_end_transition_once roomA [RoomOp.endNow 3000, RoomOp.endNow 4000]
     3000 rfl).1,
   (C1_end_transition_once roomA [RoomOp.endNow 3000, RoomOp.endNow 4000]
     3000 rfl).2.1,
   (C1_end_transition_once roomA [RoomOp.endNow 3000, RoomOp.endNow 4000]
     3000 rfl).2.2.2.2 roomDone rfl⟩

/-- C6: scores are monotonically non-decreasing under every room
operation and along every operation sequence; a single tick changes the
scores by at most one point total (so at most one player's score, by
exactly 1); and once `gameEnded` is set no operation or operation
sequence ever mutates either score again. -/
theorem C6_scores_monotone (room : GameRoom) (op : RoomOp)
    (ops : List RoomOp) (now : ℤ) (r1 r2 : ℚ) :
    (room.player1.score ≤ (roomStep room op).1.player1.score ∧
     room.player2.score ≤ (roomStep room op).1.player2.score) ∧
    ((gameLoopTick now r1 r2 room).1.player1.score = room.player1.score ∧
       (gameLoopTick now r1 r2 room).1.player2.score = room.player2.score ∨
     (gameLoopTick now r1 r2 room).1.player1.score = room.player1.score + 1 ∧
       (gameLoopTick now r1 r2 room).1.player2.score = room.player2.score ∨
     (gameLoopTick now r1 r2 room).1.player1.score = room.player1.score ∧
       (gameLoopTick now r1 r2 room).1.player2.score = room.player2.score + 1) ∧
    (room.gameEnded = true →
      (roomStep room op).1.player1.score = room.player1.score ∧
      (roomStep room op).1.player2.score = room.player2.score ∧
      (runRoom room ops).1.player1.score = room.player1.score ∧
      (runRoom room ops).1.player2.score = room.player2.score) ∧
    (room.player1.score ≤ (runRoom room ops).1.player1.score ∧
     room.player2.score ≤ (runRoom room ops).1.player2.score) := by
  obtain ⟨s1, s2, s3, _, _, sEnd, _⟩ := roomStep_core room op
  obtain ⟨t1, t2, t3, _, _, _, _⟩ := gameLoopTick_core now r1 r2 room
  obtain ⟨u1, u2, _, _, uEnd, _⟩ := runRoom_core ops room
  refine ⟨⟨s1, s2⟩, by omega, fun hend => ?_, u1, u2⟩
  obtain ⟨_, _, _, m4, m5⟩ := sEnd hend
  obtain ⟨_, _, _, n4, n5⟩ := uEnd hend
  exact ⟨m4, m5, n4, n5⟩

theorem C6_scores_monotone_witness :
    roomDone.gameEnded = true ∧
    roomA.player1.score ≤
      (roomStep roomA (RoomOp.tick 1100 0 0)).1.player1.score ∧
    (roomStep roomDone (RoomOp.tick 1100 0 0)).1.player1.score =
      roomDone.player1.score ∧
    (runRoom roomDone [RoomOp.tick 1100 0 0, RoomOp.endNow 1200]).1.player2.score =
      roomDone.player2.score :=
  ⟨rfl,
   (C6_scores_monotone roomA (RoomOp.tick 1100 0 0)
     [RoomOp.tick 1100 0 0, RoomOp.endNow 1200] 1100 0 0).1.1,
   ((C6_scores_monotone roomDone (RoomOp.tick 1100 0 0)
     [RoomOp.tick 1100 0 0, RoomOp.endNow 1200] 1100 0 0).2.2.1 rfl).1,
   ((C6_scores_monotone roomDone (RoomOp.tick 1100 0 0)
     [RoomOp.tick 1100 0 0, RoomOp.endNow 1200] 1100 0 0).2.2.1 rfl).2.2.2⟩

end FtTrans
